import Mathlib

/-!
Verification development for the Hotel Content Creator application.

The embedding covers:
* `services/geminiService.ts` — the Content Generation Client
  (`generateHotelContent`): its try/catch error classification and the
  shape of the value it returns on success.
* `App.tsx` — the batch runner (`runBatchTasks`), the control handlers
  (`handlePause`, `handleResume`, `handleAbort`), the submission reset
  logic of `handleProcessFile`, the spreadsheet header detection
  (`findHeader`) and row filtering, and the tabular export
  (`handleDownload`, xlsx branch).

JavaScript strings are Lean `String`s; JavaScript numbers appearing in
the data model (latitude/longitude) are modelled as `Rat` (the claims
only ever need equality with zero and value preservation, never any
floating-point rounding behaviour).  The external provider and the
`JSON.parse` library routine are part of the environment: a provider
outcome records either a thrown error message or the response text
together with what `JSON.parse` yields on that text.
-/

/-- `startsWithChars needle hay` : `needle` is a prefix of `hay`
(character lists).  Models the position-0 case of
`String.prototype.includes`. -/
def startsWithChars : List Char → List Char → Bool
  | [], _ => true
  | _ :: _, [] => false
  | a :: as, b :: bs => a == b && startsWithChars as bs

/-- `hasSubChars needle hay` : `needle` occurs contiguously inside `hay`.  -/
def hasSubChars (needle : List Char) : List Char → Bool
  | [] => startsWithChars needle []
  | b :: bs => startsWithChars needle (b :: bs) || hasSubChars needle bs

/-- Model of JavaScript `msg.includes(pat)` (substring containment). -/
def msgIncludes (msg pat : String) : Bool :=
  hasSubChars pat.data msg.data

/-- JSON values, as produced by `JSON.parse`. -/
inductive Json where
  | null : Json
  | bool : Bool → Json
  | num : Rat → Json
  | str : String → Json
  | arr : List Json → Json
  | obj : List (String × Json) → Json

/-- First-binding lookup in a JSON object field list (JavaScript object
property access `o[k]`). -/
def jLookup (fs : List (String × Json)) (k : String) : Option Json :=
  match fs with
  | [] => none
  | (k2, v) :: rest => if k2 == k then some v else jLookup rest k

/-- The outcome of one interaction with the external provider, as
distinguished by the code of `generateHotelContent`: either the
`ai.models.generateContent` call throws (carrying an error message), or
it returns a response whose `text` is recorded together with what
`JSON.parse` yields on that text (`Except.error` carrying the
`SyntaxError` message when parsing throws). -/
inductive ProviderOutcome where
  | failure (message : String)
  | success (text : String) (parsed : Except String Json)

/-- Error message thrown inside the `try` block when `response.text` is
falsy (source: geminiService.ts line 61). -/
def emptyResponseMsg : String := "Received an empty response from the API."

/-- Error message thrown by the `catch` block when the caught message
contains "429" (source: geminiService.ts line 71). -/
def rlFullMsg : String := "API rate limit exceeded. Please try again later."

/-- Error message thrown by the `catch` block for every other caught
error (source: geminiService.ts line 73). -/
def genFailedMsg : String :=
  "Failed to generate hotel content. The model might not have found the requested hotel or an API error occurred."

/-- The substring the `catch` block of `generateHotelContent` scans for. -/
def quotaPat : String := "429"

/-- Embedding of `generateHotelContent` (geminiService.ts lines 47-74),
as a function of the provider outcome.  The `try` body either returns
the parsed JSON (cast, unvalidated, to `HotelData` in the source) or
throws; every throw — including the empty-response throw issued inside
the `try` body itself — is routed through the `catch` block, which
classifies by scanning the caught message for "429". -/
def generateHotelContent (o : ProviderOutcome) : Except String Json :=
  let inner : Except String Json :=
    match o with
    | ProviderOutcome.failure msg => Except.error msg
    | ProviderOutcome.success text parsed =>
        if text.isEmpty then Except.error emptyResponseMsg
        else parsed
  match inner with
  | Except.ok j => Except.ok j
  | Except.error m =>
      if msgIncludes m quotaPat then Except.error rlFullMsg
      else Except.error genFailedMsg

/-- The nine required `HotelData` fields that must be strings
(types.ts / the response schema of geminiService.ts). -/
def requiredStringFields : List String :=
  ["Eingabe_Land", "Eingabe_Hotelname", "GIATA_Code", "Adresse_Strasse",
   "PLZ", "Ort", "Telefon", "Beschreibung_DE", "Beschreibung_FR"]

/-- The two required `HotelData` fields that must be numbers. -/
def requiredNumFields : List String := ["Latitude", "Longitude"]

/-- The field is present and is a JSON string. -/
def isStringVal : Option Json → Bool
  | some (Json.str _) => true
  | _ => false

/-- The field is present and is a JSON number. -/
def isNumVal : Option Json → Bool
  | some (Json.num _) => true
  | _ => false

/-- A JSON value satisfies the `HotelData` interface of types.ts: it is
an object carrying all eleven required fields with the right types. -/
def isValidHotelJson : Json → Bool
  | Json.obj fs =>
      requiredStringFields.all (fun k => isStringVal (jLookup fs k)) &&
      requiredNumFields.all (fun k => isNumVal (jLookup fs k))
  | _ => false

/-- The `HotelData` interface of types.ts, used by the batch runner for
successful generation results (the runner receives values already cast
to this interface). -/
structure HotelData where
  Eingabe_Land : String
  Eingabe_Hotelname : String
  GIATA_Code : String
  Adresse_Strasse : String
  PLZ : String
  Ort : String
  Telefon : String
  Latitude : Rat
  Longitude : Rat
  Beschreibung_DE : String
  Beschreibung_FR : String
deriving DecidableEq

/-- The `BatchTask` interface of types.ts.  `originalData` is the parsed
spreadsheet row, an opaque key-value record carried through verbatim. -/
structure BatchTask where
  country : String
  hotelName : String
  city : Option String
  originalData : List (String × String)
deriving DecidableEq

/-- The two values of the `status` field of `BatchResult`. -/
inductive BatchStatus where
  | success
  | error
deriving DecidableEq

/-- The `BatchResult` interface of types.ts. -/
structure BatchResult where
  input : BatchTask
  output : Option HotelData
  status : BatchStatus
  error : Option String
deriving DecidableEq

/-- The `BatchState` union type of types.ts. -/
inductive BatchState where
  | idle
  | running
  | paused
  | aborted
  | completed
deriving DecidableEq

/-! ## Spreadsheet ingestion (`handleProcessFile`, App.tsx lines 142-175) -/

/-- ASCII whitespace, the alphabet relevant to the headers and cells
this application handles. -/
def isWsChar (c : Char) : Bool :=
  c == ' ' || c == '\t' || c == '\n' || c == '\r'

/-- JavaScript `s.trim()`: strip whitespace from both ends (modelled
over the character list so that it evaluates by structural
recursion). -/
def jsTrim (s : String) : String :=
  String.mk (((s.data.dropWhile isWsChar).reverse.dropWhile isWsChar).reverse)

/-- JavaScript `s.toLowerCase()` on the ASCII alphabet. -/
def jsLower (s : String) : String :=
  String.mk (s.data.map Char.toLower)

/-- `h.toLowerCase().trim()`, the normalization `findHeader` applies to
each candidate header before comparing. -/
def normHeader (s : String) : String :=
  jsTrim (jsLower s)

/-- Embedding of the inner `findHeader` of `handleProcessFile`: for each
candidate name in order, return the first header whose lowercased,
trimmed form equals it. -/
def findHeader (headers : List String) (possibleNames : List String) : Option String :=
  possibleNames.findSome? (fun name => headers.find? (fun h => normHeader h == name))

/-- Aliases accepted for the country column. -/
def countryAliases : List String := ["country", "land"]

/-- Aliases accepted for the hotel-name column. -/
def hotelAliases : List String := ["hotel name", "hotelname", "hotel"]

/-- Aliases accepted for the optional city column. -/
def cityAliases : List String := ["city", "stadt", "ort"]

/-- JavaScript `row[header]` with `defval: ""` (first binding wins; a
missing key yields the empty string). -/
def rowGet (row : List (String × String)) (k : String) : String :=
  match row with
  | [] => ""
  | (k2, v) :: rest => if k2 == k then v else rowGet rest k

/-- The `json.map((row) => ...)` task constructor of `handleProcessFile`. -/
def mkTask (countryHeader hotelHeader : String) (cityHeader : Option String)
    (row : List (String × String)) : BatchTask :=
  { country := rowGet row countryHeader,
    hotelName := rowGet row hotelHeader,
    city := cityHeader.map (fun ch => rowGet row ch),
    originalData := row }

/-- The `.filter(task => String(task.country).trim() && String(task.hotelName).trim())`
predicate: both required cells are non-blank after trimming. -/
def taskKeep (t : BatchTask) : Bool :=
  !(jsTrim t.country == "") && !(jsTrim t.hotelName == "")

/-- Column detection plus task construction of `handleProcessFile`:
`none` models the thrown "Could not find required columns" error. -/
def buildTasks (headers : List String) (rows : List (List (String × String))) :
    Option (List BatchTask) :=
  match findHeader headers countryAliases, findHeader headers hotelAliases with
  | some ch, some hh =>
      some (((rows.map (mkTask ch hh (findHeader headers cityAliases)))).filter taskKeep)
  | _, _ => none

/-- Position of a detected header within the header row (the "column
role" a header resolves to). -/
def headerPos (headers : List String) (h : String) : Option Nat :=
  headers.findIdx? (fun x => x == h)

/-- The column index a role resolves to: position of the header that
`findHeader` picks. -/
def colIndex (headers : List String) (aliases : List String) : Option Nat :=
  (findHeader headers aliases).bind (fun h => headerPos headers h)

/-! ## Tabular export (`handleDownload`, App.tsx lines 197-227, xlsx branch) -/

/-- A spreadsheet cell value: the xlsx branch writes either a string or
a number into each appended column. -/
inductive CellV where
  | s : String → CellV
  | n : Rat → CellV
deriving DecidableEq

/-- JavaScript `x || ''` applied to a number-or-undefined: `undefined`
and the falsy number `0` both collapse to the empty string. -/
def numOrEmpty (o : Option Rat) : CellV :=
  match o with
  | none => CellV.s ""
  | some q => if q = 0 then CellV.s "" else CellV.n q

/-- The string stored in the exported `Status` column. -/
def statusString : BatchStatus → String
  | BatchStatus.success => "Success"
  | BatchStatus.error => "Error"

/-- One flattened export row: the original input columns plus the nine
appended columns built by the xlsx branch of `handleDownload`. -/
structure FlatRow where
  originalData : List (String × String)
  status : String
  errorMsg : String
  giata : String
  address : String
  phone : String
  latitude : CellV
  longitude : CellV
  descDE : String
  descFR : String
deriving DecidableEq

/-- Embedding of the per-result flattening of `handleDownload`
(the `generatedData` object, App.tsx lines 206-217). -/
def flattenResult (res : BatchResult) : FlatRow :=
  { originalData := res.input.originalData,
    status := statusString res.status,
    errorMsg := (res.error).getD "",
    giata := (res.output.map (fun r => r.GIATA_Code)).getD "",
    address :=
      match res.output with
      | some r => r.Adresse_Strasse ++ ", " ++ r.PLZ ++ " " ++ r.Ort
      | none => "",
    phone := (res.output.map (fun r => r.Telefon)).getD "",
    latitude := numOrEmpty (res.output.map (fun r => r.Latitude)),
    longitude := numOrEmpty (res.output.map (fun r => r.Longitude)),
    descDE := (res.output.map (fun r => r.Beschreibung_DE)).getD "",
    descFR := (res.output.map (fun r => r.Beschreibung_FR)).getD "" }

/-- The `flattenedData` array of the xlsx branch: one row per
`BatchResult`, in list order.  (When the results list is empty the
source returns before building any file; the row list is then empty.) -/
def handleDownloadRows (results : List BatchResult) : List FlatRow :=
  results.map flattenResult

/-! ## Batch runner (`runBatchTasks`, App.tsx lines 48-100)

The runner is an asynchronous loop over shared mutable flags
(`isPausedRef`, `isAbortedRef`, `currentTaskIndexRef`) and React state
(`batchResults`, `batchState`, `batchProgress`, `batchError`).  The
host is single-threaded: user event handlers (`handlePause`,
`handleResume`, `handleAbort`) can only run while the loop is parked at
one of its two `await` points — the generation call and the 200 ms
pause-poll sleep.  We therefore model a run as the loop machine
consuming a list of environment events: each event is either the
resolution of the pending generation call or a user action performed
while the loop was parked at an `await`.  The code between two `await`
points (top-of-loop progress report, abort check, pause test, call
dispatch, result recording) runs atomically.

Two ghost fields instrument the machine without influencing it:
`calls` records the index of every task for which a generation call was
initiated, and `tops` records `(results.length, cursor)` each time the
loop body is entered at the top of an iteration. -/

/-- The runner-visible state: loop-local accumulator `results`, the
refs, and the React state mirrored by the loop, plus the two ghost
fields `calls` and `tops`. -/
structure RunnerSt where
  cursor : Nat
  results : List BatchResult
  paused : Bool
  aborted : Bool
  batchState : BatchState
  batchError : Option String
  progress : Nat × Nat
  calls : List Nat
  tops : List (Nat × Nat)
deriving DecidableEq

/-- `handlePause` (App.tsx lines 43-46). -/
def handlePause (s : RunnerSt) : RunnerSt :=
  { s with paused := true, batchState := BatchState.paused }

/-- `handleResume` (App.tsx lines 186-190): unconditionally clears the
pause flag and the rate-limit notice and sets the state to running. -/
def handleResume (s : RunnerSt) : RunnerSt :=
  { s with paused := false, batchError := none, batchState := BatchState.running }

/-- `handleAbort` (App.tsx lines 192-195): sets the abort flag only;
the loop is responsible for observing it. -/
def handleAbort (s : RunnerSt) : RunnerSt :=
  { s with aborted := true }

deriving instance DecidableEq for Except

/-- One environment event: the pending generation call resolves
(`call`, carrying the success value or the thrown error message), or
the user presses resume / pause / abort while the loop is parked. -/
inductive Ev where
  | call : Except String HotelData → Ev
  | resume : Ev
  | pause : Ev
  | abort : Ev
deriving DecidableEq

/-- Effect of a user action on the runner state.  A `call` event is not
a user action; if one is offered at a point where no call is pending it
is ignored. -/
def applyUser : Ev → RunnerSt → RunnerSt
  | Ev.resume, s => handleResume s
  | Ev.pause, s => handlePause s
  | Ev.abort, s => handleAbort s
  | Ev.call _, s => s

/-- The substring `runBatchTasks` scans the caught message for
(App.tsx line 81). -/
def rateLimitSub : String := "API rate limit exceeded"

/-- The notice shown when the loop auto-pauses on a rate limit
(App.tsx line 83). -/
def rateLimitNotice : String :=
  "Processing paused due to API rate limit. Please wait a moment and then resume."

/-- Placeholder task for the (unreachable) out-of-range read
`tasks[currentIndex]`; the loop only dispatches a call while
`cursor < tasks.length`. -/
def dummyTask : BatchTask :=
  { country := "", hotelName := "", city := none, originalData := [] }

/-- The try/catch of one loop iteration (App.tsx lines 74-93): on
success append a Success result and advance; on a message containing
the rate-limit substring set the notice and auto-pause without
advancing; on any other error append an Error result and advance. -/
def stepOutcome (task : BatchTask) (outcome : Except String HotelData)
    (s : RunnerSt) : RunnerSt :=
  match outcome with
  | Except.ok data =>
      { s with
        results := s.results ++
          [{ input := task, output := some data, status := BatchStatus.success, error := none }],
        cursor := s.cursor + 1 }
  | Except.error msg =>
      if msgIncludes msg rateLimitSub then
        handlePause { s with batchError := some rateLimitNotice }
      else
        { s with
          results := s.results ++
            [{ input := task, output := none, status := BatchStatus.error, error := some msg }],
          cursor := s.cursor + 1 }

/-- The outcome carried a rate-limit message (so the cursor must not
advance). -/
def isRateLimited : Except String HotelData → Bool
  | Except.ok _ => false
  | Except.error msg => msgIncludes msg rateLimitSub

/-- What the machine is parked on while it waits for the next event:
the 200 ms pause-poll sleep, or a pending generation call. -/
inductive Pend where
  | polling
  | inflight
deriving DecidableEq

/-- The synchronous top-of-loop segment (App.tsx lines 52-73): exit and
finish when the cursor has reached the task count (setting `completed`
unless aborted, lines 96-99); otherwise report progress, observe a
pending abort, and either park on the pause-poll or initiate the call
for the current task.  `Sum.inl` is a returned (no longer running)
state; `Sum.inr` is a parked machine. -/
def toWait (tasks : List BatchTask) (s : RunnerSt) : RunnerSt ⊕ (RunnerSt × Pend) :=
  if s.cursor < tasks.length then
    let s1 := { s with
      progress := (s.cursor, tasks.length),
      tops := s.tops ++ [(s.results.length, s.cursor)] }
    if s1.aborted then Sum.inl { s1 with batchState := BatchState.aborted }
    else if s1.paused then Sum.inr (s1, Pend.polling)
    else Sum.inr ({ s1 with calls := s1.calls ++ [s1.cursor] }, Pend.inflight)
  else
    if s.aborted then Sum.inl s
    else Sum.inl { s with
      progress := (tasks.length, tasks.length),
      batchState := BatchState.completed }

/-- The event-consuming part of the loop.  Parked on the pause-poll,
each wake applies the user action, re-checks the abort flag, and either
exits aborted, keeps polling, or proceeds to initiate the call for the
current task (the source resumes directly into the call, not through
the top of the loop).  Parked on a call, user actions only mutate the
flags; the call resolution is processed by `stepOutcome` and control
returns to the top of the loop.  An exhausted event list leaves the
machine in its current parked state (nothing further happens without
environment activity). -/
def runBatchAux (tasks : List BatchTask) : List Ev → RunnerSt × Pend → RunnerSt
  | [], sp => sp.1
  | e :: es, (s, Pend.polling) =>
      let s1 := applyUser e s
      if s1.aborted then { s1 with batchState := BatchState.aborted }
      else if s1.paused then runBatchAux tasks es (s1, Pend.polling)
      else runBatchAux tasks es ({ s1 with calls := s1.calls ++ [s1.cursor] }, Pend.inflight)
  | Ev.call o :: es, (s, Pend.inflight) =>
      match toWait tasks (stepOutcome (tasks.getD s.cursor dummyTask) o s) with
      | Sum.inl t => t
      | Sum.inr p => runBatchAux tasks es p
  | Ev.resume :: es, (s, Pend.inflight) =>
      runBatchAux tasks es (applyUser Ev.resume s, Pend.inflight)
  | Ev.pause :: es, (s, Pend.inflight) =>
      runBatchAux tasks es (applyUser Ev.pause s, Pend.inflight)
  | Ev.abort :: es, (s, Pend.inflight) =>
      runBatchAux tasks es (applyUser Ev.abort s, Pend.inflight)

/-- A whole run of `runBatchTasks tasks` from state `s` under the
environment event list `evs`. -/
def runBatchTasks (tasks : List BatchTask) (evs : List Ev) (s : RunnerSt) : RunnerSt :=
  match toWait tasks s with
  | Sum.inl t => t
  | Sum.inr p => runBatchAux tasks evs p

/-- The runner state at the moment `handleProcessFile` (App.tsx lines
103-111, 177-179) hands control to `runBatchTasks`: the refs are reset,
progress is `(0, tasks.length)` and the state is `running` — but the
loop-local accumulator `results` is seeded from the `batchResults`
value captured by the `runBatchTasks` closure when it was created
(`const results = [...batchResults]`, App.tsx line 49), i.e. the
results of the previous batch, not the freshly cleared React state. -/
def processFileStart (capturedResults : List BatchResult) (tasks : List BatchTask) : RunnerSt :=
  { cursor := 0,
    results := capturedResults,
    paused := false,
    aborted := false,
    batchState := BatchState.running,
    batchError := none,
    progress := (0, tasks.length),
    calls := [],
    tops := [] }

/-- A canonical running top-of-loop state with cursor `i`: not paused,
not aborted, state `running`, no pending notice, progress already
reported for index `i`. -/
def infl (tasks : List BatchTask) (r : List BatchResult) (i : Nat)
    (cs : List Nat) (ts : List (Nat × Nat)) : RunnerSt :=
  { cursor := i,
    results := r,
    paused := false,
    aborted := false,
    batchState := BatchState.running,
    batchError := none,
    progress := (i, tasks.length),
    calls := cs,
    tops := ts }

/-- Environment for `k` rate-limited attempts: each attempt resolves
the pending call with the rate-limit error thrown by
`generateHotelContent`, after which the user presses resume. -/
def rlSeq : Nat → List Ev
  | 0 => []
  | Nat.succ k => Ev.call (Except.error rlFullMsg) :: Ev.resume :: rlSeq k

/-- The Success entry pushed by the loop (App.tsx line 76). -/
def successResult (t : BatchTask) (d : HotelData) : BatchResult :=
  { input := t, output := some d, status := BatchStatus.success, error := none }

/-- The Error entry pushed by the loop (App.tsx line 89). -/
def errorResult (t : BatchTask) (msg : String) : BatchResult :=
  { input := t, output := none, status := BatchStatus.error, error := some msg }

/-- The state the machine is left in after one pass through the
synchronous top-of-loop segment, regardless of whether it returned or
parked (used to read off fields after the final event). -/
def afterTop (tasks : List BatchTask) (s : RunnerSt) : RunnerSt :=
  match toWait tasks s with
  | Sum.inl t => t
  | Sum.inr p => p.1

/-- The results/cursor accounting invariant of the loop, offset by the
length `c0` of the accumulator the run started with: the accumulator
holds `c0` carried-over entries plus one entry per resolved task, and
every recorded top-of-iteration observation satisfies the same
relation. -/
def GoodAt (c0 : Nat) (s : RunnerSt) : Prop :=
  s.results.length = c0 + s.cursor ∧ ∀ p ∈ s.tops, p.1 = c0 + p.2

/-- Example hotel record used by concrete runs. -/
def exHotel : HotelData :=
  { Eingabe_Land := "Schweiz",
    Eingabe_Hotelname := "Hotel Alpha",
    GIATA_Code := "12345",
    Adresse_Strasse := "Seestrasse 1",
    PLZ := "8001",
    Ort := "Zuerich",
    Telefon := "+41 44 000 00 00",
    Latitude := 47,
    Longitude := 8,
    Beschreibung_DE := "Ein Hotel.",
    Beschreibung_FR := "Un hotel." }

/-- Example hotel record sitting exactly on the equator: its latitude
is the falsy number `0`. -/
def exHotelZeroLat : HotelData := { exHotel with Latitude := 0 }

/-- Example batch task with empty carry-through row. -/
def exTask (c h : String) : BatchTask :=
  { country := c, hotelName := h, city := none, originalData := [] }

/-! ## Theorems -/

/-- The rate-limit message thrown by `generateHotelContent` is matched
by the substring scan of the batch loop. -/
theorem msgIncludes_rl : msgIncludes rlFullMsg rateLimitSub = true := by decide

/-- Claim C4 (counterexample): `generateHotelContent` can return
successfully with a record that has none of the required fields — a
provider response consisting of the empty JSON object (text
"\x7b\x7d") is returned as-is with every field absent, so the claim
that every success carries a fully populated, type-valid record is
false. -/
theorem claim_C4_counterexample :
    generateHotelContent
        (ProviderOutcome.success "\x7b\x7d" (Except.ok (Json.obj []))) =
      Except.ok (Json.obj []) ∧
    isValidHotelJson (Json.obj []) = false := by
  exact ⟨rfl, rfl⟩

/-- Claim C4 (amended): `generateHotelContent` performs no field
validation.  A thrown provider call never returns success; a success
returns exactly the JSON value that `JSON.parse` produced from the
(non-empty) response text, whatever its shape; and conversely any
parsed JSON value of a non-empty response is returned unchanged.
Field presence and type validity therefore hold exactly when the
provider's own JSON already satisfies the schema. -/
theorem claim_C4_amended :
    (∀ msg j, generateHotelContent (ProviderOutcome.failure msg) ≠ Except.ok j) ∧
    (∀ t p j, generateHotelContent (ProviderOutcome.success t p) = Except.ok j →
        t.isEmpty = false ∧ p = Except.ok j) ∧
    (∀ t j, t.isEmpty = false →
        generateHotelContent (ProviderOutcome.success t (Except.ok j)) = Except.ok j) := by
  refine ⟨?_, ?_, ?_⟩
  · intro msg j
    by_cases h : msgIncludes msg quotaPat = true <;>
      simp [generateHotelContent, h]
  · intro t p j h
    have hne : ∀ m (j : Json),
        (if msgIncludes m quotaPat = true then Except.error rlFullMsg
         else Except.error genFailedMsg) ≠ Except.ok j := by
      intro m j
      split <;> simp
    simp only [generateHotelContent] at h
    by_cases ht : t.isEmpty
    · rw [if_pos ht] at h
      exact absurd h (hne emptyResponseMsg j)
    · have ht2 : t.isEmpty = false := by simpa using ht
      rw [if_neg (by simp [ht2])] at h
      cases p with
      | ok j2 =>
          simp only [Except.ok.injEq] at h
          simp [ht2, h]
      | error m =>
          exact absurd h (hne m j)
  · intro t j ht
    simp [generateHotelContent, ht]

/-- Claim C4 (witness for the amended theorem): instantiation at the
one-character response text "x" parsed to the empty object. -/
theorem claim_C4_witness :
    ("x" : String).isEmpty = false ∧
    (Except.ok (Json.obj []) : Except String Json) = Except.ok (Json.obj []) :=
  claim_C4_amended.2.1 "x" (Except.ok (Json.obj [])) (Json.obj []) rfl

/-- Claim C5 (code bug): the dedicated empty-response error is thrown
inside the `try` block of `generateHotelContent` and is therefore
caught by that function's own `catch`, which re-wraps it — since the
message contains no "429" — as the generic GenerationFailed error.  An
empty provider response is thus observationally identical to any other
non-rate-limit failure, contradicting the claim that EmptyResponse is
distinguishable by the caller.  Rate-limit failures are, as claimed,
distinguishable. -/
theorem claim_C5_code_bug :
    generateHotelContent (ProviderOutcome.success "" (Except.ok Json.null)) =
      Except.error genFailedMsg ∧
    generateHotelContent (ProviderOutcome.failure "network down") =
      Except.error genFailedMsg ∧
    generateHotelContent (ProviderOutcome.failure "quota exhausted: HTTP 429") =
      Except.error rlFullMsg ∧
    emptyResponseMsg ≠ genFailedMsg := by
  refine ⟨rfl, rfl, rfl, ?_⟩
  decide

/-- Claim C8 (counterexample): the appended columns are built with
JavaScript `|| ''`, so the falsy coordinate `0` is not preserved: a
Success result for a hotel on the equator (latitude `0`) exports the
empty string in its Latitude column instead of the number `0`, so the
export does not recover the latitude of that row. -/
theorem claim_C8_counterexample :
    (successResult (exTask "EC" "Hotel Equator") exHotelZeroLat).output =
      some exHotelZeroLat ∧
    exHotelZeroLat.Latitude = 0 ∧
    (flattenResult (successResult (exTask "EC" "Hotel Equator") exHotelZeroLat)).latitude =
      CellV.s "" ∧
    (flattenResult (successResult (exTask "EC" "Hotel Equator") exHotelZeroLat)).latitude ≠
      CellV.n exHotelZeroLat.Latitude := by
  refine ⟨rfl, rfl, rfl, ?_⟩
  decide

/-- Claim C8 (amended): the tabular export produces exactly one row
per `BatchResult` in list order, preserving the original input
columns, the Status string, the error message, the external
identifier, the combined address string, the phone and both
descriptions exactly (empty strings for a null record), and the
latitude/longitude values exactly when they are nonzero — a zero
coordinate is exported as the empty string (JavaScript `|| ''`
coercion), which is the only loss of information on read-back. -/
theorem claim_C8_amended :
    (∀ rs : List BatchResult, (handleDownloadRows rs).length = rs.length) ∧
    (∀ (rs : List BatchResult) (i : Nat), i < rs.length →
        (handleDownloadRows rs)[i]? = some (flattenResult (rs.getD i (successResult dummyTask exHotel)))) ∧
    (∀ res : BatchResult,
        (flattenResult res).originalData = res.input.originalData ∧
        (flattenResult res).status = statusString res.status ∧
        (flattenResult res).errorMsg = res.error.getD "") ∧
    (∀ res : BatchResult, res.output = none →
        (flattenResult res).giata = "" ∧
        (flattenResult res).address = "" ∧
        (flattenResult res).phone = "" ∧
        (flattenResult res).latitude = CellV.s "" ∧
        (flattenResult res).longitude = CellV.s "" ∧
        (flattenResult res).descDE = "" ∧
        (flattenResult res).descFR = "") ∧
    (∀ (res : BatchResult) (rec : HotelData), res.output = some rec →
        (flattenResult res).giata = rec.GIATA_Code ∧
        (flattenResult res).address =
          rec.Adresse_Strasse ++ ", " ++ rec.PLZ ++ " " ++ rec.Ort ∧
        (flattenResult res).phone = rec.Telefon ∧
        (flattenResult res).descDE = rec.Beschreibung_DE ∧
        (flattenResult res).descFR = rec.Beschreibung_FR ∧
        (rec.Latitude ≠ 0 → (flattenResult res).latitude = CellV.n rec.Latitude) ∧
        (rec.Latitude = 0 → (flattenResult res).latitude = CellV.s "") ∧
        (rec.Longitude ≠ 0 → (flattenResult res).longitude = CellV.n rec.Longitude) ∧
        (rec.Longitude = 0 → (flattenResult res).longitude = CellV.s "")) := by
  refine ⟨?_, ?_, ?_, ?_, ?_⟩
  · intro rs
    simp [handleDownloadRows]
  · intro rs i hi
    simp [handleDownloadRows, List.getElem?_map, List.getElem?_eq_getElem hi,
      List.getD, List.getElem?_eq_getElem hi]
  · intro res
    exact ⟨rfl, rfl, rfl⟩
  · intro res h
    simp [flattenResult, h, numOrEmpty]
  · intro res rec h
    refine ⟨?_, ?_, ?_, ?_, ?_, ?_, ?_, ?_, ?_⟩
    · simp [flattenResult, h]
    · simp [flattenResult, h]
    · simp [flattenResult, h]
    · simp [flattenResult, h]
    · simp [flattenResult, h]
    · intro hl
      simp [flattenResult, h, numOrEmpty, hl]
    · intro hl
      simp [flattenResult, h, numOrEmpty, hl]
    · intro hl
      simp [flattenResult, h, numOrEmpty, hl]
    · intro hl
      simp [flattenResult, h, numOrEmpty, hl]

/-- Claim C8 (witness for the amended theorem): instantiation of the
indexing part at a singleton results list. -/
theorem claim_C8_witness :
    (handleDownloadRows [successResult (exTask "CH" "Hotel W8") exHotel])[0]? =
      some (flattenResult ([successResult (exTask "CH" "Hotel W8") exHotel].getD 0
        (successResult dummyTask exHotel))) :=
  claim_C8_amended.2.1 [successResult (exTask "CH" "Hotel W8") exHotel] 0 (by decide)

/-- Any header returned by `findHeader` is one of the supplied headers
and normalizes (lowercase, trimmed) into the alias set. -/
theorem findHeader_sound (headers aliases : List String) (h : String)
    (hf : findHeader headers aliases = some h) :
    h ∈ headers ∧ normHeader h ∈ aliases := by
  induction aliases with
  | nil => simp [findHeader, List.findSome?] at hf
  | cons a rest ih =>
      rw [findHeader, List.findSome?] at hf
      cases hfind : headers.find? (fun x => normHeader x == a) with
      | some h2 =>
          rw [hfind] at hf
          cases hf
          have hmem := List.mem_of_find?_eq_some hfind
          have hpred := List.find?_some hfind
          have heq : normHeader h = a := by simpa using hpred
          exact ⟨hmem, by simp [heq]⟩
      | none =>
          rw [hfind] at hf
          have := ih hf
          exact ⟨this.1, List.mem_cons_of_mem a this.2⟩

/-- If some header normalizes into the alias set, `findHeader` finds a
header. -/
theorem findHeader_complete (headers aliases : List String)
    (hex : ∃ h, h ∈ headers ∧ normHeader h ∈ aliases) :
    (findHeader headers aliases).isSome = true := by
  obtain ⟨h, hmem, hal⟩ := hex
  induction aliases with
  | nil => simp at hal
  | cons a rest ih =>
      rw [findHeader, List.findSome?]
      cases hfind : headers.find? (fun x => normHeader x == a) with
      | some h2 => simp
      | none =>
          rcases List.mem_cons.mp hal with ha | hrest
          · exfalso
            have := List.find?_eq_none.mp hfind h hmem
            simp [ha] at this
          · exact ih hrest

/-- Claim C9: header detection is case-insensitive and trimmed over
the fixed alias sets, so the German header row
["Land","Hotelname","Stadt"] resolves to exactly the same column roles
(indices 0, 1, 2) as the English row ["Country","Hotel Name","City"];
a detected header always normalizes into its alias set and detection
succeeds whenever any header does; and every row whose country or
hotel-name cell is blank after trimming is removed from the task list,
which is exactly the list whose length seeds the progress total. -/
theorem claim_C9 :
    (colIndex ["Land", "Hotelname", "Stadt"] countryAliases = some 0 ∧
     colIndex ["Land", "Hotelname", "Stadt"] hotelAliases = some 1 ∧
     colIndex ["Land", "Hotelname", "Stadt"] cityAliases = some 2 ∧
     colIndex ["Country", "Hotel Name", "City"] countryAliases = some 0 ∧
     colIndex ["Country", "Hotel Name", "City"] hotelAliases = some 1 ∧
     colIndex ["Country", "Hotel Name", "City"] cityAliases = some 2) ∧
    (∀ headers aliases h, findHeader headers aliases = some h →
        h ∈ headers ∧ normHeader h ∈ aliases) ∧
    (∀ headers aliases, (∃ h, h ∈ headers ∧ normHeader h ∈ aliases) →
        (findHeader headers aliases).isSome = true) ∧
    (∀ headers rows ch hh tasks,
        findHeader headers countryAliases = some ch →
        findHeader headers hotelAliases = some hh →
        buildTasks headers rows = some tasks →
        (∀ t ∈ tasks, taskKeep t = true) ∧
        tasks.length = rows.countP
          (fun row => taskKeep (mkTask ch hh (findHeader headers cityAliases) row))) ∧
    (∀ captured tasks, (processFileStart captured tasks).progress = (0, tasks.length)) := by
  refine ⟨?_, ?_, ?_, ?_, ?_⟩
  · refine ⟨?_, ?_, ?_, ?_, ?_, ?_⟩ <;> decide
  · exact findHeader_sound
  · exact findHeader_complete
  · intro headers rows ch hh tasks hch hhh hb
    rw [buildTasks, hch, hhh] at hb
    cases hb
    constructor
    · intro t ht
      exact List.of_mem_filter ht
    · rw [← List.countP_eq_length_filter, List.countP_map]
      rfl
  · intro captured tasks
    rfl

/-- Claim C9 (witness): instantiation of the filtering part at a
two-row sheet with German headers whose second row has a blank hotel
name: the kept-task count equals the count of non-blank rows, and the
surviving first-row task passes the blank filter. -/
theorem claim_C9_witness :
    ((([[("Land", "CH"), ("Hotelname", "Hotel Alpha")],
        [("Land", "DE"), ("Hotelname", "  ")]].map
        (mkTask "Land" "Hotelname" (some "Stadt"))).filter taskKeep).length =
      [[("Land", "CH"), ("Hotelname", "Hotel Alpha")],
       [("Land", "DE"), ("Hotelname", "  ")]].countP
        (fun row => taskKeep (mkTask "Land" "Hotelname"
          (findHeader ["Land", "Hotelname", "Stadt"] cityAliases) row))) ∧
    taskKeep (mkTask "Land" "Hotelname" (some "Stadt")
      [("Land", "CH"), ("Hotelname", "Hotel Alpha")]) = true := by
  have h := claim_C9.2.2.2.1 ["Land", "Hotelname", "Stadt"]
    [[("Land", "CH"), ("Hotelname", "Hotel Alpha")],
     [("Land", "DE"), ("Hotelname", "  ")]]
    "Land" "Hotelname"
    ((([[("Land", "CH"), ("Hotelname", "Hotel Alpha")],
        [("Land", "DE"), ("Hotelname", "  ")]].map
        (mkTask "Land" "Hotelname" (some "Stadt")))).filter taskKeep)
    (by decide) (by decide) (by decide)
  refine ⟨h.2, ?_⟩
  exact h.1 (mkTask "Land" "Hotelname" (some "Stadt")
    [("Land", "CH"), ("Hotelname", "Hotel Alpha")]) (by decide)

/-- A user action never changes the accumulator, the cursor, or the
ghost instrumentation. -/
theorem applyUser_fields (e : Ev) (s : RunnerSt) :
    (applyUser e s).results = s.results ∧
    (applyUser e s).cursor = s.cursor ∧
    (applyUser e s).calls = s.calls ∧
    (applyUser e s).tops = s.tops := by
  cases e <;> exact ⟨rfl, rfl, rfl, rfl⟩

/-- A user action never clears the abort flag. -/
theorem applyUser_aborted_true (e : Ev) (s : RunnerSt) (h : s.aborted = true) :
    (applyUser e s).aborted = true := by
  cases e <;> simp [applyUser, handleResume, handlePause, handleAbort, h]

/-- A non-abort user action leaves the abort flag unchanged. -/
theorem applyUser_aborted_of_ne (e : Ev) (s : RunnerSt) (h : e ≠ Ev.abort) :
    (applyUser e s).aborted = s.aborted := by
  cases e <;> simp_all [applyUser, handleResume, handlePause]

/-- Result processing never touches the abort flag, the call ghost, or
the top-of-iteration ghost. -/
theorem stepOutcome_fields (t : BatchTask) (o : Except String HotelData) (s : RunnerSt) :
    (stepOutcome t o s).aborted = s.aborted ∧
    (stepOutcome t o s).calls = s.calls ∧
    (stepOutcome t o s).tops = s.tops := by
  cases o with
  | ok d => exact ⟨rfl, rfl, rfl⟩
  | error m =>
      by_cases h : msgIncludes m rateLimitSub = true <;>
        simp [stepOutcome, handlePause, h]

/-- The cursor advances by exactly one on a success or a non-rate-limit
error, and not at all on a rate-limit error. -/
theorem stepOutcome_cursor (t : BatchTask) (o : Except String HotelData) (s : RunnerSt) :
    (stepOutcome t o s).cursor =
      if isRateLimited o then s.cursor else s.cursor + 1 := by
  cases o with
  | ok d => rfl
  | error m =>
      by_cases h : msgIncludes m rateLimitSub = true <;>
        simp [stepOutcome, handlePause, isRateLimited, h]

/-- Exactly one result is appended on a success or a non-rate-limit
error, and none on a rate-limit error. -/
theorem stepOutcome_results_length (t : BatchTask) (o : Except String HotelData) (s : RunnerSt) :
    (stepOutcome t o s).results.length =
      if isRateLimited o then s.results.length else s.results.length + 1 := by
  cases o with
  | ok d => simp [stepOutcome, isRateLimited]
  | error m =>
      by_cases h : msgIncludes m rateLimitSub = true <;>
        simp [stepOutcome, handlePause, isRateLimited, h]

/-- A run entered with the abort flag already set returns from the
top-of-loop segment at once: it initiates no call and appends no
result, whatever events — including resume and pause presses — are
still offered. -/
theorem runBatchTasks_aborted (tasks : List BatchTask) (evs : List Ev) (s : RunnerSt)
    (h : s.aborted = true) :
    (runBatchTasks tasks evs s).calls = s.calls ∧
    (runBatchTasks tasks evs s).results = s.results ∧
    (runBatchTasks tasks evs s).cursor = s.cursor := by
  unfold runBatchTasks toWait
  by_cases hc : s.cursor < tasks.length
  · simp [hc, h]
  · simp [hc, h]

/-- While the machine is parked with the abort flag set, no further
call is ever initiated, at most the one already-pending call appends
its result, and a parked pause-poll appends nothing at all. -/
theorem runBatchAux_aborted (tasks : List BatchTask) :
    ∀ (evs : List Ev) (s : RunnerSt) (pend : Pend), s.aborted = true →
      (runBatchAux tasks evs (s, pend)).calls = s.calls ∧
      (runBatchAux tasks evs (s, pend)).results.length ≤ s.results.length + 1 ∧
      (pend = Pend.polling → (runBatchAux tasks evs (s, pend)).results = s.results) := by
  intro evs
  induction evs with
  | nil =>
      intro s pend h
      cases pend <;>
        exact ⟨rfl, by simp only [runBatchAux]; omega, fun _ => rfl⟩
  | cons e es ih =>
      intro s pend h
      cases pend with
      | polling =>
          have ha := applyUser_aborted_true e s h
          have hf := applyUser_fields e s
          simp only [runBatchAux, ha, if_pos]
          exact ⟨hf.2.2.1, by rw [hf.1]; omega, fun _ => hf.1⟩
      | inflight =>
          cases e with
          | call o =>
              have hsf := stepOutcome_fields (tasks.getD s.cursor dummyTask) o s
              have hsl := stepOutcome_results_length (tasks.getD s.cursor dummyTask) o s
              have hab : (stepOutcome (tasks.getD s.cursor dummyTask) o s).aborted = true := by
                rw [hsf.1]; exact h
              simp only [runBatchAux]
              unfold toWait
              by_cases hc : (stepOutcome (tasks.getD s.cursor dummyTask) o s).cursor < tasks.length
              · simp only [hc, if_pos, hab, if_true]
                refine ⟨hsf.2.1, ?_, fun hp => by cases hp⟩
                rw [hsl]
                split <;> omega
              · simp only [hc, if_neg, if_pos, hab, if_true, if_false]
                refine ⟨hsf.2.1, ?_, fun hp => by cases hp⟩
                rw [hsl]
                split <;> omega
          | resume =>
              have ha := applyUser_aborted_true Ev.resume s h
              have hf := applyUser_fields Ev.resume s
              simp only [runBatchAux]
              have := ih (applyUser Ev.resume s) Pend.inflight ha
              refine ⟨by rw [this.1, hf.2.2.1], ?_, fun hp => by cases hp⟩
              have h2 := this.2.1
              rw [hf.1] at h2
              exact h2
          | pause =>
              have ha := applyUser_aborted_true Ev.pause s h
              have hf := applyUser_fields Ev.pause s
              simp only [runBatchAux]
              have := ih (applyUser Ev.pause s) Pend.inflight ha
              refine ⟨by rw [this.1, hf.2.2.1], ?_, fun hp => by cases hp⟩
              have h2 := this.2.1
              rw [hf.1] at h2
              exact h2
          | abort =>
              have ha := applyUser_aborted_true Ev.abort s h
              have hf := applyUser_fields Ev.abort s
              simp only [runBatchAux]
              have := ih (applyUser Ev.abort s) Pend.inflight ha
              refine ⟨by rw [this.1, hf.2.2.1], ?_, fun hp => by cases hp⟩
              have h2 := this.2.1
              rw [hf.1] at h2
              exact h2

/-- Claim C10: `handleResume` is unconditional — invoked on any state,
including one whose run already ended aborted or completed, it clears
the pause flag, clears the rate-limit notice and sets the observable
run state to running, while leaving the cursor, the accumulated
results, the abort flag and the call history untouched; and if the
abort flag is set, a (hypothetical) re-entry of the loop after the
resume still processes nothing. -/
theorem claim_C10 :
    (∀ s : RunnerSt,
        (handleResume s).paused = false ∧
        (handleResume s).batchError = none ∧
        (handleResume s).batchState = BatchState.running ∧
        (handleResume s).cursor = s.cursor ∧
        (handleResume s).results = s.results ∧
        (handleResume s).calls = s.calls ∧
        (handleResume s).aborted = s.aborted) ∧
    (∀ tasks evs (s : RunnerSt), s.aborted = true →
        (runBatchTasks tasks evs (handleResume s)).results = s.results) := by
  constructor
  · intro s
    exact ⟨rfl, rfl, rfl, rfl, rfl, rfl, rfl⟩
  · intro tasks evs s h
    have := runBatchTasks_aborted tasks evs (handleResume s) h
    exact this.2.1

/-- Claim C10 (witness): resuming an aborted one-task run appends
nothing. -/
theorem claim_C10_witness :
    (runBatchTasks [exTask "AT" "Hotel R"] [Ev.call (Except.ok exHotel)]
        (handleResume (handleAbort (processFileStart [] [exTask "AT" "Hotel R"])))).results =
      (handleAbort (processFileStart [] [exTask "AT" "Hotel R"])).results :=
  claim_C10.2 [exTask "AT" "Hotel R"] [Ev.call (Except.ok exHotel)]
    (handleAbort (processFileStart [] [exTask "AT" "Hotel R"])) rfl

/-- Claim C2 (counterexample): abort is requested while the call for
the first task is in flight; the call then succeeds and its Success
entry is appended to the results list after the abort request, so the
claim that no further Success/Error entry is appended once abort has
been requested is false.  (In the event list the abort press precedes
the call resolution.) -/
theorem claim_C2_counterexample :
    (runBatchTasks [exTask "CH" "Hotel A"]
        [Ev.abort, Ev.call (Except.ok exHotel)]
        (processFileStart [] [exTask "CH" "Hotel A"])).results =
      [successResult (exTask "CH" "Hotel A") exHotel] ∧
    (runBatchTasks [exTask "CH" "Hotel A"]
        [Ev.abort, Ev.call (Except.ok exHotel)]
        (processFileStart [] [exTask "CH" "Hotel A"])).aborted = true ∧
    [successResult (exTask "CH" "Hotel A") exHotel] ≠
      ([] : List BatchResult) := by
  refine ⟨rfl, rfl, ?_⟩
  simp

/-- Claim C2 (amended): once the abort flag is set, no call for any
further task is ever initiated, regardless of later resume or pause
presses.  Observed at the top of the loop or during a pause wait, the
abort also prevents any further append; the single call that may
already be in flight at the moment of the request is the only possible
source of one final appended result. -/
theorem claim_C2_amended :
    (∀ tasks evs (s : RunnerSt), s.aborted = true →
        (runBatchTasks tasks evs s).calls = s.calls ∧
        (runBatchTasks tasks evs s).results = s.results) ∧
    (∀ tasks evs (s : RunnerSt), s.aborted = true →
        (runBatchAux tasks evs (s, Pend.inflight)).calls = s.calls ∧
        (runBatchAux tasks evs (s, Pend.inflight)).results.length ≤ s.results.length + 1) ∧
    (∀ tasks evs (s : RunnerSt), s.aborted = true →
        (runBatchAux tasks evs (s, Pend.polling)).calls = s.calls ∧
        (runBatchAux tasks evs (s, Pend.polling)).results = s.results) := by
  refine ⟨?_, ?_, ?_⟩
  · intro tasks evs s h
    exact ⟨(runBatchTasks_aborted tasks evs s h).1, (runBatchTasks_aborted tasks evs s h).2.1⟩
  · intro tasks evs s h
    have := runBatchAux_aborted tasks evs s Pend.inflight h
    exact ⟨this.1, this.2.1⟩
  · intro tasks evs s h
    have := runBatchAux_aborted tasks evs s Pend.polling h
    exact ⟨this.1, this.2.2 rfl⟩

/-- Claim C2 (witness): an aborted state offered a resume and a new
call initiates nothing and appends nothing. -/
theorem claim_C2_witness :
    (runBatchTasks [exTask "CH" "Hotel A"] [Ev.resume, Ev.call (Except.ok exHotel)]
        (handleAbort (processFileStart [] [exTask "CH" "Hotel A"]))).calls =
      (handleAbort (processFileStart [] [exTask "CH" "Hotel A"])).calls ∧
    (runBatchTasks [exTask "CH" "Hotel A"] [Ev.resume, Ev.call (Except.ok exHotel)]
        (handleAbort (processFileStart [] [exTask "CH" "Hotel A"]))).results =
      (handleAbort (processFileStart [] [exTask "CH" "Hotel A"])).results :=
  claim_C2_amended.1 [exTask "CH" "Hotel A"] [Ev.resume, Ev.call (Except.ok exHotel)]
    (handleAbort (processFileStart [] [exTask "CH" "Hotel A"])) rfl

/-- Characterization of a returning pass through the top-of-loop
segment: fields are preserved, and when the abort flag is clear the
return is the completion exit. -/
theorem toWait_inl_spec (tasks : List BatchTask) (s t : RunnerSt)
    (ht : toWait tasks s = Sum.inl t) :
    t.results = s.results ∧ t.cursor = s.cursor ∧ t.calls = s.calls ∧
    t.aborted = s.aborted ∧
    (s.aborted = false → t.batchState = BatchState.completed ∧
      t.progress = (tasks.length, tasks.length) ∧ tasks.length ≤ s.cursor) := by
  simp only [toWait] at ht
  split_ifs at ht with h1 h2 h3 h4
  all_goals cases ht
  · exact ⟨rfl, rfl, rfl, rfl, fun hf => by simp [hf] at h2⟩
  · exact ⟨rfl, rfl, rfl, rfl, fun hf => by simp [hf] at h4⟩
  · exact ⟨rfl, rfl, rfl, rfl, fun _ => ⟨rfl, rfl, by omega⟩⟩

/-- Characterization of a parking pass through the top-of-loop
segment: the cursor is still below the task count, a top-of-iteration
observation is recorded, and all remaining fields are preserved. -/
theorem toWait_inr_spec (tasks : List BatchTask) (s : RunnerSt) (p : RunnerSt × Pend)
    (hr : toWait tasks s = Sum.inr p) :
    p.1.cursor = s.cursor ∧ p.1.results = s.results ∧ p.1.aborted = s.aborted ∧
    p.1.paused = s.paused ∧ p.1.batchState = s.batchState ∧
    p.1.tops = s.tops ++ [(s.results.length, s.cursor)] ∧
    s.cursor < tasks.length := by
  simp only [toWait] at hr
  split_ifs at hr with h1 h2 h3 h4
  all_goals cases hr
  · exact ⟨rfl, rfl, rfl, rfl, rfl, rfl, h1⟩
  · exact ⟨rfl, rfl, rfl, rfl, rfl, rfl, h1⟩

/-- While parked below the task count with the abort flag clear and no
abort press among the remaining events, the machine keeps the abort
flag clear, and if it gets through all tasks it ends completed with
full progress. -/
theorem runBatchAux_complete (tasks : List BatchTask) :
    ∀ (evs : List Ev) (s : RunnerSt) (pend : Pend),
      s.aborted = false → Ev.abort ∉ evs → s.cursor < tasks.length →
      (runBatchAux tasks evs (s, pend)).aborted = false ∧
      (tasks.length ≤ (runBatchAux tasks evs (s, pend)).cursor →
        (runBatchAux tasks evs (s, pend)).batchState = BatchState.completed ∧
        (runBatchAux tasks evs (s, pend)).progress = (tasks.length, tasks.length)) := by
  intro evs
  induction evs with
  | nil =>
      intro s pend h hnab hc
      simp only [runBatchAux]
      exact ⟨h, fun hge => absurd hge (by omega)⟩
  | cons e es ih =>
      intro s pend h hnab hc
      have hene : e ≠ Ev.abort := by
        intro he
        exact hnab (by simp [he])
      have hesnab : Ev.abort ∉ es := by
        intro he
        exact hnab (List.mem_cons_of_mem e he)
      have ha : (applyUser e s).aborted = false := by
        rw [applyUser_aborted_of_ne e s hene]
        exact h
      cases pend with
      | polling =>
          simp only [runBatchAux]
          rw [if_neg (by rw [ha]; simp)]
          by_cases hp : (applyUser e s).paused = true
          · rw [if_pos hp]
            exact ih (applyUser e s) Pend.polling ha hesnab
              (by rw [(applyUser_fields e s).2.1]; exact hc)
          · rw [if_neg hp]
            exact ih _ Pend.inflight ha hesnab
              (by rw [(applyUser_fields e s).2.1]; exact hc)
      | inflight =>
          cases e with
          | call o =>
              simp only [runBatchAux]
              have hsa : (stepOutcome (tasks.getD s.cursor dummyTask) o s).aborted = false := by
                rw [(stepOutcome_fields (tasks.getD s.cursor dummyTask) o s).1]
                exact h
              cases htw : toWait tasks (stepOutcome (tasks.getD s.cursor dummyTask) o s) with
              | inl t =>
                  have hspec := toWait_inl_spec tasks _ t htw
                  have hta : t.aborted = false := by rw [hspec.2.2.2.1]; exact hsa
                  have hdone := hspec.2.2.2.2 hsa
                  exact ⟨hta, fun _ => ⟨hdone.1, hdone.2.1⟩⟩
              | inr p =>
                  have hspec := toWait_inr_spec tasks _ p htw
                  have hpa : p.1.aborted = false := by rw [hspec.2.2.1]; exact hsa
                  have hpc : p.1.cursor < tasks.length := by
                    rw [hspec.1]
                    exact hspec.2.2.2.2.2.2
                  exact ih p.1 p.2 hpa hesnab hpc
          | resume =>
              simp only [runBatchAux]
              exact ih _ Pend.inflight ha hesnab
                (by rw [(applyUser_fields Ev.resume s).2.1]; exact hc)
          | pause =>
              simp only [runBatchAux]
              exact ih _ Pend.inflight ha hesnab
                (by rw [(applyUser_fields Ev.pause s).2.1]; exact hc)
          | abort =>
              exact absurd (by simp : Ev.abort ∈ Ev.abort :: es) hnab

/-- Claim C6 (counterexample): abort is requested while the final
task's generation call is in flight; the call then succeeds, the
cursor reaches the task count, the loop exits, and the aborted guard
suppresses the completion transition — but nothing ever sets the state
to aborted either, so the final observable run state is `running`, not
`aborted` as the claim requires. -/
theorem claim_C6_counterexample :
    (runBatchTasks [exTask "FR" "Hotel B"]
        [Ev.abort, Ev.call (Except.ok exHotel)]
        (processFileStart [] [exTask "FR" "Hotel B"])).batchState =
      BatchState.running ∧
    (runBatchTasks [exTask "FR" "Hotel B"]
        [Ev.abort, Ev.call (Except.ok exHotel)]
        (processFileStart [] [exTask "FR" "Hotel B"])).aborted = true ∧
    BatchState.running ≠ BatchState.aborted := by
  refine ⟨rfl, rfl, ?_⟩
  decide

/-- Claim C6 (amended): an abort observed at the top of the loop or
during a pause wait ends the run in state `aborted`; a run never
offered an abort keeps the abort flag clear and, once its cursor
reaches the task count, ends `completed` with progress reported as
`(total, total)`; but when the abort flag is first observed after the
final task has already resolved, the loop exits without entering any
terminal state, leaving the last observable state (`running`)
unchanged. -/
theorem claim_C6_amended :
    (∀ tasks evs (s : RunnerSt), s.aborted = true → s.cursor < tasks.length →
        (runBatchTasks tasks evs s).batchState = BatchState.aborted) ∧
    (∀ tasks evs (s : RunnerSt),
        (runBatchAux tasks (Ev.abort :: evs) (s, Pend.polling)).batchState =
          BatchState.aborted) ∧
    (∀ tasks evs (s : RunnerSt), s.aborted = false → Ev.abort ∉ evs →
        (runBatchTasks tasks evs s).aborted = false ∧
        (tasks.length ≤ (runBatchTasks tasks evs s).cursor →
          (runBatchTasks tasks evs s).batchState = BatchState.completed ∧
          (runBatchTasks tasks evs s).progress = (tasks.length, tasks.length))) ∧
    (∀ tasks evs (s : RunnerSt), tasks.length ≤ s.cursor → s.aborted = true →
        runBatchTasks tasks evs s = s) := by
  refine ⟨?_, ?_, ?_, ?_⟩
  · intro tasks evs s h hc
    unfold runBatchTasks toWait
    simp [hc, h]
  · intro tasks evs s
    simp [runBatchAux, applyUser, handleAbort]
  · intro tasks evs s h hnab
    unfold runBatchTasks
    cases htw : toWait tasks s with
    | inl t =>
        have hspec := toWait_inl_spec tasks s t htw
        have hdone := hspec.2.2.2.2 h
        refine ⟨by rw [hspec.2.2.2.1]; exact h, fun _ => ⟨hdone.1, hdone.2.1⟩⟩
    | inr p =>
        have hspec := toWait_inr_spec tasks s p htw
        have hpa : p.1.aborted = false := by rw [hspec.2.2.1]; exact h
        have hpc : p.1.cursor < tasks.length := by
          rw [hspec.1]
          exact hspec.2.2.2.2.2.2
        exact runBatchAux_complete tasks evs p.1 p.2 hpa hnab hpc
  · intro tasks evs s hc h
    unfold runBatchTasks toWait
    rw [if_neg (by omega), if_pos h]

/-- Claim C6 (witness): an already-aborted two-task run at cursor 0
ends in state aborted; a clean singleton run with one successful call
ends completed with progress (1, 1). -/
theorem claim_C6_witness :
    (runBatchTasks [exTask "CH" "Hotel A", exTask "FR" "Hotel B"] []
        (handleAbort (processFileStart [] [exTask "CH" "Hotel A", exTask "FR" "Hotel B"]))).batchState =
      BatchState.aborted ∧
    (runBatchTasks [exTask "DK" "Hotel F"] [Ev.call (Except.ok exHotel)]
        (processFileStart [] [exTask "DK" "Hotel F"])).aborted = false := by
  constructor
  · exact claim_C6_amended.1 [exTask "CH" "Hotel A", exTask "FR" "Hotel B"] []
      (handleAbort (processFileStart [] [exTask "CH" "Hotel A", exTask "FR" "Hotel B"]))
      rfl (by decide)
  · exact (claim_C6_amended.2.2.1 [exTask "DK" "Hotel F"] [Ev.call (Except.ok exHotel)]
      (processFileStart [] [exTask "DK" "Hotel F"]) rfl (by decide)).1

/-- Claim C7 (code bug): `handleProcessFile` resets the cursor and the
flags and sets the state to running, and `setBatchResults([])` clears
the React state — but the `runBatchTasks` closure it invokes was
created during the previous render, so its `const results =
[...batchResults]` copies the results of the PREVIOUS batch.  A second
submission therefore begins accumulating on top of the old entries:
after its first task succeeds, the observable results list holds the
stale entry followed by the new one, while the claim requires the
accumulated list to be empty when processing of the first task
begins. -/
theorem claim_C7_code_bug :
    (∀ captured tasks,
        (processFileStart captured tasks).results = captured ∧
        (processFileStart captured tasks).batchState = BatchState.running ∧
        (processFileStart captured tasks).cursor = 0) ∧
    (processFileStart [successResult (exTask "ES" "Hotel P") exHotel]
        [exTask "IT" "Hotel C"]).results ≠ [] ∧
    (runBatchTasks [exTask "IT" "Hotel C"] [Ev.call (Except.ok exHotel)]
        (processFileStart [successResult (exTask "ES" "Hotel P") exHotel]
          [exTask "IT" "Hotel C"])).results =
      [successResult (exTask "ES" "Hotel P") exHotel,
       successResult (exTask "IT" "Hotel C") exHotel] := by
  refine ⟨fun captured tasks => ⟨rfl, rfl, rfl⟩, ?_, rfl⟩
  simp [processFileStart]

/-- Claim C3 (counterexample): because a second submission seeds the
accumulator with the previous batch's results (see C7), the loop's
first top-of-iteration observation on such a run is `(1, 0)` — a
results-list length of 1 against a cursor of 0 — refuting the claimed
equality at the top of every iteration. -/
theorem claim_C3_counterexample :
    (runBatchTasks [exTask "GR" "Hotel E"] []
        (processFileStart [successResult (exTask "PT" "Hotel D") exHotel]
          [exTask "GR" "Hotel E"])).tops = [(1, 0)] ∧
    (1 : Nat) ≠ 0 := by
  exact ⟨rfl, by decide⟩

/-- Result processing preserves the offset accounting between the
accumulator length and the cursor. -/
theorem stepOutcome_good (c0 : Nat) (t : BatchTask) (o : Except String HotelData)
    (s : RunnerSt) (h : s.results.length = c0 + s.cursor) :
    (stepOutcome t o s).results.length = c0 + (stepOutcome t o s).cursor := by
  rw [stepOutcome_results_length, stepOutcome_cursor]
  split <;> omega

/-- A returning pass through the top of the loop preserves the
accounting invariant, including for the observation it may record. -/
theorem toWait_inl_good (c0 : Nat) (tasks : List BatchTask) (s t : RunnerSt)
    (ht : toWait tasks s = Sum.inl t) (hg : GoodAt c0 s) : GoodAt c0 t := by
  simp only [toWait] at ht
  split_ifs at ht with h1 h2 h3 h4
  all_goals cases ht
  · refine ⟨hg.1, ?_⟩
    intro p hp
    rcases List.mem_append.mp hp with hin | hin
    · exact hg.2 p hin
    · simp only [List.mem_singleton] at hin
      rw [hin]
      exact hg.1
  · exact hg
  · exact ⟨hg.1, hg.2⟩

/-- A parking pass through the top of the loop preserves the
accounting invariant, including for the observation it records. -/
theorem toWait_inr_good (c0 : Nat) (tasks : List BatchTask) (s : RunnerSt)
    (p : RunnerSt × Pend) (hr : toWait tasks s = Sum.inr p) (hg : GoodAt c0 s) :
    GoodAt c0 p.1 := by
  simp only [toWait] at hr
  split_ifs at hr with h1 h2 h3 h4
  all_goals cases hr
  all_goals
    refine ⟨hg.1, ?_⟩
    intro q hq
    rcases List.mem_append.mp hq with hin | hin
    · exact hg.2 q hin
    · simp only [List.mem_singleton] at hin
      rw [hin]
      exact hg.1

/-- The whole event-consuming loop preserves the accounting
invariant. -/
theorem runBatchAux_good (c0 : Nat) (tasks : List BatchTask) :
    ∀ (evs : List Ev) (s : RunnerSt) (pend : Pend),
      GoodAt c0 s → GoodAt c0 (runBatchAux tasks evs (s, pend)) := by
  intro evs
  induction evs with
  | nil =>
      intro s pend hg
      simp only [runBatchAux]
      exact hg
  | cons e es ih =>
      intro s pend hg
      have hau : GoodAt c0 (applyUser e s) := by
        have hf := applyUser_fields e s
        exact ⟨by rw [hf.1, hf.2.1]; exact hg.1, by rw [hf.2.2.2]; exact hg.2⟩
      cases pend with
      | polling =>
          simp only [runBatchAux]
          by_cases hab : (applyUser e s).aborted = true
          · rw [if_pos hab]
            exact hau
          · rw [if_neg hab]
            by_cases hp : (applyUser e s).paused = true
            · rw [if_pos hp]
              exact ih _ Pend.polling hau
            · rw [if_neg hp]
              exact ih _ Pend.inflight hau
      | inflight =>
          cases e with
          | call o =>
              simp only [runBatchAux]
              have hsg : GoodAt c0 (stepOutcome (tasks.getD s.cursor dummyTask) o s) := by
                refine ⟨stepOutcome_good c0 _ o s hg.1, ?_⟩
                rw [(stepOutcome_fields (tasks.getD s.cursor dummyTask) o s).2.2]
                exact hg.2
              cases htw : toWait tasks (stepOutcome (tasks.getD s.cursor dummyTask) o s) with
              | inl t => exact toWait_inl_good c0 tasks _ t htw hsg
              | inr p => exact ih p.1 p.2 (toWait_inr_good c0 tasks _ p htw hsg)
          | resume =>
              simp only [runBatchAux]
              exact ih _ Pend.inflight hau
          | pause =>
              simp only [runBatchAux]
              exact ih _ Pend.inflight hau
          | abort =>
              simp only [runBatchAux]
              exact ih _ Pend.inflight hau

/-- Claim C3 (amended): provided the run begins with an accumulator
holding `c0` carried-over entries (with the stale-closure seeding of
C7, `c0` is the previous batch's size; for a first submission `c0 =
0`, which is the claim's original statement), every recorded
top-of-iteration observation satisfies `results.length = c0 + cursor`;
and the cursor advances by exactly one on a success or non-rate-limit
failure and not at all on a rate-limit failure, which likewise appends
no result. -/
theorem claim_C3_amended :
    (∀ tasks evs (s : RunnerSt) (c0 : Nat),
        s.results.length = c0 + s.cursor →
        (∀ p ∈ s.tops, p.1 = c0 + p.2) →
        ∀ p ∈ (runBatchTasks tasks evs s).tops, p.1 = c0 + p.2) ∧
    (∀ t o (s : RunnerSt), (stepOutcome t o s).cursor =
        if isRateLimited o then s.cursor else s.cursor + 1) ∧
    (∀ t o (s : RunnerSt), (stepOutcome t o s).results.length =
        if isRateLimited o then s.results.length else s.results.length + 1) := by
  refine ⟨?_, stepOutcome_cursor, stepOutcome_results_length⟩
  intro tasks evs s c0 h1 h2
  have hg : GoodAt c0 s := ⟨h1, h2⟩
  unfold runBatchTasks
  cases htw : toWait tasks s with
  | inl t => exact (toWait_inl_good c0 tasks s t htw hg).2
  | inr p => exact (runBatchAux_good c0 tasks evs p.1 p.2 (toWait_inr_good c0 tasks s p htw hg)).2

/-- Claim C3 (witness): a clean singleton run records the observation
(0, 0) at its first top of loop, and the amended theorem applied to it
confirms the invariant at that observation. -/
theorem claim_C3_witness :
    (runBatchTasks [exTask "NO" "Hotel G"] [Ev.call (Except.ok exHotel)]
        (processFileStart [] [exTask "NO" "Hotel G"])).tops = [(0, 0)] ∧
    ((0, 0) ∈ (runBatchTasks [exTask "NO" "Hotel G"] [Ev.call (Except.ok exHotel)]
        (processFileStart [] [exTask "NO" "Hotel G"])).tops →
      (0 : Nat) = 0 + 0) := by
  refine ⟨rfl, ?_⟩
  intro hm
  exact claim_C3_amended.1 [exTask "NO" "Hotel G"] [Ev.call (Except.ok exHotel)]
    (processFileStart [] [exTask "NO" "Hotel G"]) 0 rfl (by simp [processFileStart])
    (0, 0) hm

/-- Entering the loop at a running top-of-loop state below the task
count records the observation and initiates the call for the current
task. -/
theorem run_entry (tasks : List BatchTask) (r : List BatchResult) (i : Nat)
    (cs : List Nat) (ts : List (Nat × Nat)) (evs : List Ev) (hi : i < tasks.length) :
    runBatchTasks tasks evs (infl tasks r i cs ts) =
      runBatchAux tasks evs
        (infl tasks r i (cs ++ [i]) (ts ++ [(r.length, i)]), Pend.inflight) := by
  simp [runBatchTasks, toWait, infl, hi]

/-- One rate-limited attempt followed by a user resume returns the
machine to the in-flight state for the same task with the same
accumulator: the pause was entered and left, the cursor did not move,
and one further call for the same index was initiated. -/
theorem run_rl_pair (tasks : List BatchTask) (r : List BatchResult) (i : Nat)
    (cs : List Nat) (ts : List (Nat × Nat)) (evs : List Ev) (hi : i < tasks.length) :
    runBatchAux tasks (Ev.call (Except.error rlFullMsg) :: Ev.resume :: evs)
        (infl tasks r i cs ts, Pend.inflight) =
      runBatchAux tasks evs
        (infl tasks r i (cs ++ [i]) (ts ++ [(r.length, i)]), Pend.inflight) := by
  simp [runBatchAux, stepOutcome, toWait, applyUser, handlePause, handleResume,
    infl, msgIncludes_rl, hi]

/-- `k` rate-limited attempts, each resumed by the user, leave the
machine in flight on the same task with the accumulator untouched. -/
theorem run_rl_seq (tasks : List BatchTask) (r : List BatchResult) (i : Nat)
    (evs : List Ev) (hi : i < tasks.length) :
    ∀ (k : Nat) (cs : List Nat) (ts : List (Nat × Nat)),
      runBatchAux tasks (rlSeq k ++ evs) (infl tasks r i cs ts, Pend.inflight) =
        runBatchAux tasks evs
          (infl tasks r i (cs ++ List.replicate k i)
            (ts ++ List.replicate k (r.length, i)), Pend.inflight) := by
  intro k
  induction k with
  | zero =>
      intro cs ts
      simp [rlSeq]
  | succ k ih =>
      intro cs ts
      rw [rlSeq, List.cons_append, List.cons_append,
        run_rl_pair tasks r i cs ts _ hi, ih]
      simp [List.replicate_succ]

/-- A rate-limited attempt with no further events parks the machine on
the pause-poll: state paused, cursor unmoved, accumulator unchanged. -/
theorem run_rl_end (tasks : List BatchTask) (r : List BatchResult) (i : Nat)
    (cs : List Nat) (ts : List (Nat × Nat)) (hi : i < tasks.length) :
    (runBatchAux tasks [Ev.call (Except.error rlFullMsg)]
        (infl tasks r i cs ts, Pend.inflight)).batchState = BatchState.paused ∧
    (runBatchAux tasks [Ev.call (Except.error rlFullMsg)]
        (infl tasks r i cs ts, Pend.inflight)).cursor = i ∧
    (runBatchAux tasks [Ev.call (Except.error rlFullMsg)]
        (infl tasks r i cs ts, Pend.inflight)).results = r := by
  refine ⟨?_, ?_, ?_⟩ <;>
    simp [runBatchAux, stepOutcome, toWait, handlePause, infl, msgIncludes_rl, hi]

/-- Resolving the pending call and exhausting the events applies the
outcome and one final pass through the top of the loop. -/
theorem run_call_end (tasks : List BatchTask) (s : RunnerSt) (o : Except String HotelData) :
    runBatchAux tasks [Ev.call o] (s, Pend.inflight) =
      afterTop tasks (stepOutcome (tasks.getD s.cursor dummyTask) o s) := by
  simp only [runBatchAux, afterTop]

/-- The final pass through the top of the loop never changes the
accumulator or the cursor. -/
theorem afterTop_results_cursor (tasks : List BatchTask) (s : RunnerSt) :
    (afterTop tasks s).results = s.results ∧ (afterTop tasks s).cursor = s.cursor := by
  unfold afterTop
  cases htw : toWait tasks s with
  | inl t =>
      have hspec := toWait_inl_spec tasks s t htw
      exact ⟨hspec.1, hspec.2.1⟩
  | inr p =>
      have hspec := toWait_inr_spec tasks s p htw
      exact ⟨hspec.2.1, hspec.1⟩

/-- Claim C1: from any running top-of-loop state at task index `i`, if
the generation call for task `i` fails with the rate-limit error
exactly `k` times (the user resuming after each auto-pause) and then
succeeds, then (a) each of the `k` rate-limited attempts leaves the
runner paused with the cursor still at `i` and the results list
untouched, and (b) the completed scenario appends exactly one
BatchResult for task `i`, marked Success, and advances the cursor past
`i` exactly once. -/
theorem claim_C1 (tasks : List BatchTask) (i k : Nat) (d : HotelData)
    (r : List BatchResult) (cs : List Nat) (ts : List (Nat × Nat))
    (hi : i < tasks.length) :
    (∀ j, j < k →
      (runBatchTasks tasks (rlSeq j ++ [Ev.call (Except.error rlFullMsg)])
          (infl tasks r i cs ts)).batchState = BatchState.paused ∧
      (runBatchTasks tasks (rlSeq j ++ [Ev.call (Except.error rlFullMsg)])
          (infl tasks r i cs ts)).cursor = i ∧
      (runBatchTasks tasks (rlSeq j ++ [Ev.call (Except.error rlFullMsg)])
          (infl tasks r i cs ts)).results = r) ∧
    (runBatchTasks tasks (rlSeq k ++ [Ev.call (Except.ok d)])
        (infl tasks r i cs ts)).results =
      r ++ [successResult (tasks.getD i dummyTask) d] ∧
    (runBatchTasks tasks (rlSeq k ++ [Ev.call (Except.ok d)])
        (infl tasks r i cs ts)).cursor = i + 1 := by
  refine ⟨?_, ?_, ?_⟩
  · intro j hj
    rw [run_entry tasks r i cs ts _ hi,
      run_rl_seq tasks r i _ hi j (cs ++ [i]) (ts ++ [(r.length, i)])]
    exact run_rl_end tasks r i _ _ hi
  · rw [run_entry tasks r i cs ts _ hi,
      run_rl_seq tasks r i _ hi k (cs ++ [i]) (ts ++ [(r.length, i)]),
      run_call_end]
    rw [(afterTop_results_cursor tasks _).1]
    simp [stepOutcome, infl, successResult]
  · rw [run_entry tasks r i cs ts _ hi,
      run_rl_seq tasks r i _ hi k (cs ++ [i]) (ts ++ [(r.length, i)]),
      run_call_end]
    rw [(afterTop_results_cursor tasks _).2]
    simp [stepOutcome, infl]

/-- Claim C1 (witness): one rate-limited attempt then success on a
singleton batch — the attempt pauses at cursor 0 with no results, the
retry appends the single Success entry and moves the cursor to 1. -/
theorem claim_C1_witness :
    ((runBatchTasks [exTask "SE" "Hotel H"]
        (rlSeq 0 ++ [Ev.call (Except.error rlFullMsg)])
        (infl [exTask "SE" "Hotel H"] [] 0 [] [])).batchState = BatchState.paused ∧
     (runBatchTasks [exTask "SE" "Hotel H"]
        (rlSeq 0 ++ [Ev.call (Except.error rlFullMsg)])
        (infl [exTask "SE" "Hotel H"] [] 0 [] [])).cursor = 0 ∧
     (runBatchTasks [exTask "SE" "Hotel H"]
        (rlSeq 0 ++ [Ev.call (Except.error rlFullMsg)])
        (infl [exTask "SE" "Hotel H"] [] 0 [] [])).results = []) ∧
    (runBatchTasks [exTask "SE" "Hotel H"]
        (rlSeq 1 ++ [Ev.call (Except.ok exHotel)])
        (infl [exTask "SE" "Hotel H"] [] 0 [] [])).results =
      [] ++ [successResult ([exTask "SE" "Hotel H"].getD 0 dummyTask) exHotel] ∧
    (runBatchTasks [exTask "SE" "Hotel H"]
        (rlSeq 1 ++ [Ev.call (Except.ok exHotel)])
        (infl [exTask "SE" "Hotel H"] [] 0 [] [])).cursor = 0 + 1 := by
  have h := claim_C1 [exTask "SE" "Hotel H"] 0 1 exHotel [] [] [] (by decide)
  exact ⟨h.1 0 (by decide), h.2.1, h.2.2⟩
